import Mathlib

/-!
Shallow embedding of the schema normalization and classification core of
CubismBindings (pylib/genbase.py).

Modelling conventions:
* Python strings are Lean `String` (all schema text handled by the generator is
  ASCII, so `Char.toLower`/`Char.toUpper` model Python's `str.lower`/`str.upper`
  on the characters involved).
* Dictionary keys that may be absent (`doc`, `return`, `length`, ...) are
  `Option` fields; operations that can raise (`KeyError`, `IndexError`, a
  failing `assert`) return `Option`, with `none` for the raised exception.
* Python's `str.replace(pat, '')` removes every non-overlapping occurrence of
  `pat`, scanning left to right; `str.split(sep)` splits on every occurrence of
  the (non-empty) separator, keeping empty pieces.  Both are embedded with a
  fuel parameter equal to the length of the scanned string so that they stay
  structurally recursive (hence kernel-computable); the fuel is always
  sufficient because every step consumes at least one character.
-/

namespace GenBase

/-- Python `needle in haystack` (substring containment) on character lists. -/
def containsSub (needle : List Char) : List Char → Bool
  | [] => needle.isEmpty
  | l@(_ :: t) => needle.isPrefixOf l || containsSub needle t

/-- Python `pat in s` for strings. -/
def pyContains (s pat : String) : Bool := containsSub pat.data s.data

/-- Python `s.startswith(pat)`. -/
def pyStartswith (s pat : String) : Bool := pat.data.isPrefixOf s.data

/-- Python `s.endswith(pat)`, via reversed-prefix. -/
def pyEndswith (s pat : String) : Bool := pat.data.reverse.isPrefixOf s.data.reverse

/-- Fuelled core of Python `s.replace(pat, '')`: removes every non-overlapping
occurrence of `pat`, scanning left to right.  The fuel bounds the number of
steps; callers pass the length of the scanned list, which always suffices. -/
def removeAllFuel (pat : List Char) : Nat → List Char → List Char
  | _, [] => []
  | 0, s => s
  | fuel + 1, c :: cs =>
    if !pat.isEmpty && pat.isPrefixOf (c :: cs) then
      removeAllFuel pat fuel (cs.drop (pat.length - 1))
    else
      c :: removeAllFuel pat fuel cs

/-- Python `s.replace(pat, '')`.  (For `pat = ''` Python returns `s` unchanged
when the replacement is empty, matched by the `!pat.isEmpty` guard.) -/
def pyReplace (s pat : String) : String := ⟨removeAllFuel pat.data s.data.length s.data⟩

/-- Fuelled core of Python `s.split(sep)` for a non-empty separator. -/
def pySplitFuel (pat : List Char) : Nat → List Char → List (List Char)
  | _, [] => [[]]
  | 0, s => [s]
  | fuel + 1, c :: cs =>
    if !pat.isEmpty && pat.isPrefixOf (c :: cs) then
      [] :: pySplitFuel pat fuel (cs.drop (pat.length - 1))
    else
      match pySplitFuel pat fuel cs with
      | [] => [[c]]
      | piece :: rest => (c :: piece) :: rest

/-- Python `s.split(sep)` (explicit separator: keeps empty pieces). -/
def pySplit (s pat : String) : List String :=
  (pySplitFuel pat.data s.data.length s.data).map (fun l => ⟨l⟩)

/-- Python whitespace characters recognized by `str.strip()`. -/
def pyIsSpace (c : Char) : Bool :=
  c = ' ' || c = '\t' || c = '\n' || c = '\r' || c = '\x0b' || c = '\x0c'

/-- Python `s.strip()`. -/
def pyStrip (s : String) : String :=
  ⟨((s.data.dropWhile pyIsSpace).reverse.dropWhile pyIsSpace).reverse⟩

/-- Python `s[0].lower() + s[1:]`; `none` models the `IndexError` on `""`. -/
def pyLowerFirst (s : String) : Option String :=
  match s.data with
  | [] => none
  | c :: cs => some ⟨Char.toLower c :: cs⟩

/-- Python `s[0].upper() + s[1:]`; `none` models the `IndexError` on `""`. -/
def pyUpperFirst (s : String) : Option String :=
  match s.data with
  | [] => none
  | c :: cs => some ⟨Char.toUpper c :: cs⟩

/-- Python `s.lower()` (ASCII). -/
def pyLower (s : String) : String := ⟨s.data.map Char.toLower⟩

/-- Python `s[:-1]`. -/
def pyButLast (s : String) : String := ⟨s.data.dropLast⟩

/-! ## Data model (§6 of the spec: recognized schema shapes) -/

/-- An argument descriptor: `{type, name?, doc?}`. -/
structure Arg where
  type : String
  name : Option String := none
  doc : Option String := none
deriving DecidableEq

/-- A return descriptor: `{type, length?, length2?}`. -/
structure Ret where
  type : String
  length : Option String := none
  length2 : Option String := none
deriving DecidableEq

/-- A function entry: `{entry, class, doc?, args?, return?}`.  `entry` and
`class` are accessed unconditionally by the source, so they are plain fields. -/
structure Func where
  entry : String
  «class» : String
  doc : Option String := none
  args : Option (List Arg) := none
  ret : Option Ret := none
deriving DecidableEq

/-- An enum (or flag) entry: `{name, doc}`. -/
structure EnumEntry where
  name : String
  doc : String
deriving DecidableEq

/-! ## Naming deriver (genbase.py lines 76-96) -/

/-- The three-stage substring removal of `_topropname` (line 78):
`func['entry'].replace('csmGet', '').replace(func['class'], '').replace(func['class'][:-1], '')`. -/
def propnameStripped (f : Func) : String :=
  pyReplace (pyReplace (pyReplace f.entry "csmGet") f.«class») (pyButLast f.«class»)

/-- `_topropname` (lines 76-79). -/
def topropname (f : Func) : Option String := pyLowerFirst (propnameStripped f)

/-- `_topropdoc` (lines 82-85): `func['doc'].replace('Gets', '').strip()`,
then upper-case the first character. -/
def topropdoc (d : String) : Option String := pyUpperFirst (pyStrip (pyReplace d "Gets"))

/-- The three-stage substring removal of `_tofuncname` (line 90). -/
def funcnameStripped (f : Func) : String :=
  pyReplace (pyReplace (pyReplace f.entry "csm") f.«class») (pyButLast f.«class»)

/-- `_tofuncname` (lines 88-91). -/
def tofuncname (f : Func) : Option String := pyLowerFirst (funcnameStripped f)

/-! ## Function classifier (genbase.py lines 99-141) -/

/-- `_isproperty` (lines 99-105). -/
def isproperty (f : Func) : Bool :=
  if !pyStartswith f.entry "csmGet" then false
  else if !pyContains f.entry (pyButLast f.«class») then false
  else true

/-- `_isscalararray2property` (lines 121-125); `none` models the `KeyError`
when a property has no `return` descriptor. -/
def isscalararray2property (f : Func) : Option Bool :=
  if !isproperty f then some false
  else (f.ret).map (fun r => pyEndswith r.type "Array2")

/-- `_isscalararrayproperty` (lines 128-134). -/
def isscalararrayproperty (f : Func) : Option Bool :=
  if !isproperty f then some false
  else do
    let r ← f.ret
    if !pyEndswith r.type "Array" then return false
    return r.type != "StringArray"

/-- `_isstringarrayproperty` (lines 137-141). -/
def isstringarrayproperty (f : Func) : Option Bool :=
  if !isproperty f then some false
  else do
    let r ← f.ret
    return r.type == "StringArray"

/-- `_isscalarproperty` (lines 108-118). -/
def isscalarproperty (f : Func) : Option Bool :=
  if !isproperty f then some false
  else do
    let a2 ← isscalararray2property f
    if a2 then return false
    let a1 ← isscalararrayproperty f
    if a1 then return false
    let sa ← isstringarrayproperty f
    if sa then return false
    return true

/-! ## Per-function patching (genbase.py lines 163-194) -/

/-- Arg patching (lines 175-178): default `doc` to the raw type and `name` to
the lower-cased type when absent (`_getoradd`). -/
def patchArg (a : Arg) : Arg :=
  { a with doc := some (a.doc.getD a.type), name := some (a.name.getD (pyLower a.type)) }

/-- The function record after arg patching (lines 175-178). -/
def patchArgsOf (f : Func) : Func :=
  { f with args := f.args.map (fun l => l.map patchArg) }

/-- A function after the first patching loop: the (arg-patched) record plus the
derived naming fields (`prop...` when classified as property, `func...`
otherwise). -/
structure PatchedFunc where
  base : Func
  isprop : Bool
  propdoc : Option String := none
  propname : Option String := none
  Propname : Option String := none
  funcdoc : Option String := none
  funcname : Option String := none
  Funcname : Option String := none
deriving DecidableEq

/-- Lines 175-194: patch args, then classify and derive names/docs.  `none`
models the exceptions raised on a missing `doc` key or an empty name after
stripping. -/
def patchFunc (f : Func) : Option PatchedFunc :=
  if isproperty f then do
    let d ← f.doc
    let pd ← topropdoc d
    let pn ← topropname f
    let pnu ← pyUpperFirst pn
    return { base := patchArgsOf f, isprop := true,
             propdoc := some pd, propname := some pn, Propname := some pnu }
  else do
    let d ← f.doc
    let fn ← tofuncname f
    let fnu ← pyUpperFirst fn
    return { base := patchArgsOf f, isprop := false,
             funcdoc := some d, funcname := some fn, Funcname := some fnu }

/-! ## Property sorting (genbase.py lines 197-239) -/

/-- The four property shapes of the `if/elif/elif/else` chain. -/
inductive Shape where
  | scalar
  | array1
  | array2
  | stringarray
deriving DecidableEq

/-- The fields written onto a property dict by the sort loop (lines 204-233).
Fields the corresponding branch does not set stay `none`. -/
structure PropFields where
  propdoc : String
  proptype : String
  propget : String
  shape : Shape
  propscalartype : String
  propgetlength : Option String := none
  propgetlengthfactor : Option String := none
  proplengthfactor : Option String := none
  propgetlength2 : Option String := none
  proplength2factor : Option String := none
deriving DecidableEq

/-- Loop body of the property sort (lines 204-233), for one property.
`none` models the `KeyError`/`IndexError`/`assert` failures on missing keys,
missing split tokens, or a property that matches no shape. -/
def patchPropFields (p : Func) : Option PropFields := do
  let d ← p.doc
  let pd ← topropdoc d                                   -- line 204
  let r ← p.ret                                          -- line 205
  let pt := r.type
  let pg := p.entry                                      -- line 206
  let a2 ← isscalararray2property p                      -- line 207
  if a2 then do
    let st ← (pySplit pt "Array").get? 0                 -- line 208
    let len ← r.length                                   -- line 209
    let gl ← (pySplit len " ").get? 0
    let f1 ← (if pyContains len "*" then do              -- lines 210-211
                let t ← (pySplit len "*").get? 1
                pure (some (pyStrip t))
              else pure none)
    let len2 ← r.length2                                 -- line 212
    let gl2 ← (pySplit len2 " ").get? 0
    let f2 ← (if pyContains len2 "*" then do             -- lines 213-214
                let t ← (pySplit len2 "*").get? 1
                pure (some (pyStrip t))
              else pure none)
    return { propdoc := pd, proptype := pt, propget := pg, shape := Shape.array2,
             propscalartype := st, propgetlength := some gl, proplengthfactor := f1,
             propgetlength2 := some gl2, proplength2factor := f2 }
  else do
    let a1 ← isscalararrayproperty p                     -- line 218
    if a1 then do
      let st ← (pySplit pt "Array").get? 0               -- line 219
      let len ← r.length                                 -- line 220
      let gl ← (pySplit len " ").get? 0
      let f1 ← (if pyContains len "*" then do            -- lines 221-222: split(' ')[1]
                  let t ← (pySplit len " ").get? 1
                  pure (some (pyStrip t))
                else pure none)
      return { propdoc := pd, proptype := pt, propget := pg, shape := Shape.array1,
               propscalartype := st, propgetlength := some gl, propgetlengthfactor := f1 }
    else do
      let sa ← isstringarrayproperty p                   -- line 225
      if sa then do
        let len ← r.length                               -- line 227 (raw, no tokenization)
        return { propdoc := pd, proptype := pt, propget := pg, shape := Shape.stringarray,
                 propscalartype := pt, propgetlength := some len }
      else do
        let sc ← isscalarproperty p                      -- line 231: assert
        if sc then
          return { propdoc := pd, proptype := pt, propget := pg, shape := Shape.scalar,
                   propscalartype := pt }
        else none

/-- A property together with its sort-loop fields. -/
structure SortedProp where
  base : Func
  fields : PropFields
deriving DecidableEq

/-- The per-class property partition (lines 198-233): each property is patched
and appended to exactly one of the four buckets
`(scalarprops, scalararrayprops, scalararray2props, stringarrayprops)`. -/
def sortProps : List Func → Option (List SortedProp × List SortedProp × List SortedProp × List SortedProp)
  | [] => some ([], [], [], [])
  | p :: ps => do
    let fs ← patchPropFields p
    let sp : SortedProp := { base := p, fields := fs }
    let (a, b, c, d) ← sortProps ps
    match fs.shape with
    | Shape.scalar => return (sp :: a, b, c, d)
    | Shape.array1 => return (a, sp :: b, c, d)
    | Shape.array2 => return (a, b, sp :: c, d)
    | Shape.stringarray => return (a, b, c, sp :: d)

/-! ## Class aggregation (genbase.py lines 144-242) -/

/-- A class record before sorting (lines 166-173), with the `hasprops` /
`hasfuncs` flags of lines 187 and 193 (`false` models key absence). -/
structure ClsRec where
  doc : String
  name : String
  Name : String
  type : String
  props : List Func := []
  funcs : List Func := []
  hasprops : Bool := false
  hasfuncs : Bool := false
deriving DecidableEq

/-- Association-list lookup over the class map. -/
def lookupCls (m : List (String × ClsRec)) (key : String) : Option ClsRec :=
  match m with
  | [] => none
  | (k, c) :: rest => if k = key then some c else lookupCls rest key

/-- `_getoradd` (lines 245-249) specialized to the class map. -/
def getoraddCls (m : List (String × ClsRec)) (key : String) (v : ClsRec) : List (String × ClsRec) :=
  if (lookupCls m key).isSome then m else m ++ [(key, v)]

/-- Append a (patched) function to its class's `props` or `funcs` list
(lines 183-194), setting the corresponding flag. -/
def appendFunc (m : List (String × ClsRec)) (key : String) (f : Func) (isprop : Bool) :
    List (String × ClsRec) :=
  m.map (fun kc =>
    if kc.1 = key then
      (kc.1,
        if isprop then { kc.2 with props := kc.2.props ++ [f], hasprops := true }
        else { kc.2 with funcs := kc.2.funcs ++ [f], hasfuncs := true })
    else kc)

/-- The first patching loop over functions (lines 164-194): get-or-create the
class record, patch the function, and append it to `props` or `funcs`. -/
def groupFuncs (acc : List (String × ClsRec)) : List Func → Option (List (String × ClsRec))
  | [] => some acc
  | f :: fs => do
    let key ← pyLowerFirst f.«class»                     -- line 166
    let cdoc ← pyUpperFirst f.«class»                    -- line 167
    let pf ← patchFunc f
    let acc' := getoraddCls acc key
      { doc := cdoc, name := key, Name := f.«class», type := f.«class» }
    groupFuncs (appendFunc acc' key pf.base pf.isprop) fs

/-- A class record after the sort loop (lines 198-239): the four buckets plus
the `hasarrayprop`/`hasarray2prop` flags (set inside the array branches; this
is equivalent to the corresponding bucket being non-empty). -/
structure ClsOut where
  key : String
  doc : String
  name : String
  Name : String
  type : String
  props : List Func
  funcs : List Func
  hasprops : Bool
  hasfuncs : Bool
  scalarprops : List SortedProp
  scalararrayprops : List SortedProp
  scalararray2props : List SortedProp
  stringarrayprops : List SortedProp
  hasarrayprop : Bool
  hasarray2prop : Bool
deriving DecidableEq

/-- Run the property sort over every class of the map (lines 197-239). -/
def sortClasses : List (String × ClsRec) → Option (List ClsOut)
  | [] => some []
  | (k, c) :: rest => do
    let (a, b, c2, d) ← sortProps c.props
    let restOut ← sortClasses rest
    return ({ key := k, doc := c.doc, name := c.name, Name := c.Name, type := c.type,
              props := c.props, funcs := c.funcs, hasprops := c.hasprops,
              hasfuncs := c.hasfuncs, scalarprops := a, scalararrayprops := b,
              scalararray2props := c2, stringarrayprops := d,
              hasarrayprop := !b.isEmpty || !c2.isEmpty || !d.isEmpty,
              hasarray2prop := !c2.isEmpty } :: restOut)

/-- The function-related part of `_patchdata` (lines 163-241): group the
functions into the class map, then partition every class's properties. -/
def patchClasses (funcs : List Func) : Option (List ClsOut) := do
  let m ← groupFuncs [] funcs
  sortClasses m

/-! ## Enum patching (genbase.py lines 149-154) -/

/-- An enum entry after patching. -/
structure PatchedEnumEntry where
  name : String
  doc : String
  valuedoc : String
  valuename : String
  Valuename : String
deriving DecidableEq

/-- Lines 149-154: `valuename = entry['name'].replace('csm', '')`;
`valuename` gets the first character lower-cased, `Valuename` is the stripped
name unchanged. -/
def patchEnumEntry (e : EnumEntry) : Option PatchedEnumEntry := do
  let v := pyReplace e.name "csm"
  let vn ← pyLowerFirst v
  return { name := e.name, doc := e.doc, valuedoc := e.doc, valuename := vn, Valuename := v }

/-! ## Schema merging (genbase.py lines 27-37) -/

/-- Association-list lookup for the merged-schema model. -/
def lookupKey {α : Type} (d : List (String × List α)) (k : String) : Option (List α) :=
  match d with
  | [] => none
  | (k2, v) :: rest => if k2 = k then some v else lookupKey rest k

/-- Replace the value stored at key `k` (first occurrence). -/
def setKey {α : Type} (d : List (String × List α)) (k : String) (v : List α) :
    List (String × List α) :=
  match d with
  | [] => []
  | (k2, v2) :: rest => if k2 = k then (k2, v) :: rest else (k2, v2) :: setKey rest k v

/-- Lines 33-37 for one item of a subsequent document: concatenate onto an
existing key, insert a fresh key otherwise. -/
def mergeItem {α : Type} (base : List (String × List α)) (kv : String × List α) :
    List (String × List α) :=
  match lookupKey base kv.1 with
  | some v => setKey base kv.1 (v ++ kv.2)
  | none => base ++ [kv]

/-- Lines 32-37: merge one subsequent document into the base schema. -/
def mergeDoc {α : Type} (base b : List (String × List α)) : List (String × List α) :=
  b.foldl mergeItem base

/-- Lines 27-37: the first document is the base; every later document is merged
into it in order. -/
def mergeAll {α : Type} (d : List (String × List α)) (ds : List (List (String × List α))) :
    List (String × List α) :=
  ds.foldl mergeDoc d

end GenBase

namespace GenBase

/-! ## Concrete schema entries used by the scenario claims -/

/-- The C1 scenario input: `{entry: "csmGetPartOpacities", class: "Model",
return: {type: "FloatArray", length: "count * 1"}}`. -/
def c1func : Func :=
  { entry := "csmGetPartOpacities", «class» := "Model",
    ret := some { type := "FloatArray", length := some "count * 1" } }

/-- The C1 scenario input with a class that passes the property test
(`"Part"` occurs in the entry). -/
def c1funcParts : Func :=
  { entry := "csmGetPartOpacities", «class» := "Parts", doc := some "Gets part opacities.",
    ret := some { type := "FloatArray", length := some "count * 1" } }

/-- The C6 scenario input: `{entry: "csmGetParameterCount", class: "Model",
doc: "Gets parameter count.", return: {type: "Int"}}`. -/
def c6func : Func :=
  { entry := "csmGetParameterCount", «class» := "Model", doc := some "Gets parameter count.",
    ret := some { type := "Int" } }

/-- The C7 scenario input `{entry: "csmUpdateModel", class: "Model"}`,
parametrized by the doc string the scenario leaves implicit (`_tofuncdoc`
reads `func['doc']` unconditionally). -/
def c7func (d : String) : Func :=
  { entry := "csmUpdateModel", «class» := "Model", doc := some d }

/-- A property-shaped function with no `return` descriptor (for C9). -/
def c9func : Func :=
  { entry := "csmGetMocVersion", «class» := "Moc", doc := some "Gets moc version." }

/-- A function whose entry is exactly the accessor prefix followed by the class
name (for C10): stripping leaves the empty string. -/
def c10prop : Func :=
  { entry := "csmGetModel", «class» := "Model", doc := some "Gets model." }

/-- A function whose entry is exactly `csm` followed by the class name
(for C10, method side). -/
def c10meth : Func :=
  { entry := "csmModel", «class» := "Model", doc := some "Does something." }

/-- A well-formed scalar property used as concrete witness input. -/
def mocFunc : Func :=
  { entry := "csmGetMocVersion", «class» := "Moc", doc := some "Gets moc version.",
    ret := some { type := "Int" } }

/-- The sorted property produced for `mocFunc`. -/
def mocSorted : SortedProp :=
  { base := mocFunc,
    fields := { propdoc := "Moc version.", proptype := "Int", propget := "csmGetMocVersion",
                shape := Shape.scalar, propscalartype := "Int" } }

/-- The class record produced by `patchClasses [mocFunc]`. -/
def mocCls : ClsOut :=
  { key := "moc", doc := "Moc", name := "moc", Name := "Moc", type := "Moc",
    props := [mocFunc], funcs := [], hasprops := true, hasfuncs := false,
    scalarprops := [mocSorted], scalararrayprops := [], scalararray2props := [],
    stringarrayprops := [], hasarrayprop := false, hasarray2prop := false }

/-- Modelled from the spec's words for claim C5 only (not from the source):
strip the fixed identifier prefix `csm` when it leads the name, leave the name
unchanged otherwise.  Used to compare the claim's prescription against the
source's replace-all behaviour. -/
def claimStripLeading (s : String) : String :=
  if pyStartswith s "csm" then ⟨s.data.drop 3⟩ else s

/-- Claim C5's prescribed `valuename`: leading prefix stripped, first character
lower-cased. -/
def claimValuename (s : String) : Option String := pyLowerFirst (claimStripLeading s)

/-- Claim C5's prescribed `Valuename`: leading prefix stripped, first character
upper-cased. -/
def claimValuenameCap (s : String) : Option String := pyUpperFirst (claimStripLeading s)

/-! ## Helper lemmas -/

/-- Removing a pattern that does not occur anywhere is the identity, for any
amount of fuel. -/
lemma removeAllFuel_of_not_contains (pat : List Char) :
    ∀ (fuel : Nat) (s : List Char), containsSub pat s = false → removeAllFuel pat fuel s = s := by
  intro fuel
  induction fuel with
  | zero =>
    intro s _
    cases s <;> simp [removeAllFuel]
  | succ fuel ih =>
    intro s h
    cases s with
    | nil => simp [removeAllFuel]
    | cons c cs =>
      rw [containsSub] at h
      rcases Bool.or_eq_false_iff.mp h with ⟨hpre, hrest⟩
      rw [removeAllFuel, hpre]
      simp [ih cs hrest]

/-- Python `s.replace(pat, '')` is the identity when `pat` does not occur in
`s`. -/
lemma pyReplace_of_not_contains (s pat : String) (h : pyContains s pat = false) :
    pyReplace s pat = s := by
  obtain ⟨d⟩ := s
  unfold pyReplace
  rw [removeAllFuel_of_not_contains pat.data _ d h]

/-- A string ending in `Array2` cannot also end in `Array` (the last characters
differ). -/
lemma endsArray2_not_endsArray (t : String) (h : pyEndswith t "Array2" = true) :
    pyEndswith t "Array" = false := by
  unfold pyEndswith at *
  have h2 : ("Array2" : String).data.reverse = ['2', 'y', 'a', 'r', 'r', 'A'] := by decide
  have h1 : ("Array" : String).data.reverse = ['y', 'a', 'r', 'r', 'A'] := by decide
  rw [h2] at h
  rw [h1]
  cases hl : t.data.reverse with
  | nil => rw [hl] at h; simp [List.isPrefixOf] at h
  | cons c l =>
    rw [hl] at h
    rw [List.isPrefixOf] at h ⊢
    have hc : (('2' : Char) == c) = true := ((Bool.and_eq_true _ _).mp h).1
    have hc2 : c = '2' := (eq_of_beq hc).symm
    subst hc2
    have hy : (('y' : Char) == '2') = false := by decide
    rw [hy, Bool.false_and]

/-- The distinguished string-array type does not end in `Array2`. -/
lemma strArr_not_endsArray2 : pyEndswith "StringArray" "Array2" = false := by decide

/-- The sort loop puts every property into exactly one bucket: element counts
are preserved. -/
lemma sortProps_count : ∀ (ps : List Func) (a b c d : List SortedProp),
    sortProps ps = some (a, b, c, d) →
    ∀ x : Func, ((a ++ b ++ c ++ d).map SortedProp.base).count x = ps.count x := by
  intro ps
  induction ps with
  | nil =>
    intro a b c d h x
    simp [sortProps] at h
    obtain ⟨ha, hb, hc, hd⟩ := h
    subst ha; subst hb; subst hc; subst hd
    simp
  | cons p ps ih =>
    intro a b c d h x
    rw [sortProps] at h
    cases hpf : patchPropFields p with
    | none => rw [hpf] at h; simp at h
    | some fs =>
      rw [hpf] at h
      cases hs : sortProps ps with
      | none => rw [hs] at h; simp at h
      | some q =>
        obtain ⟨a2, b2, c2, d2⟩ := q
        rw [hs] at h
        have hI := ih a2 b2 c2 d2 hs x
        simp only [Option.pure_def, Option.bind_eq_bind, Option.some_bind'] at h
        split at h <;>
        · simp only [Option.pure_def, Option.some.injEq, Prod.mk.injEq] at h
          obtain ⟨ha, hb, hc, hd⟩ := h
          subst ha; subst hb; subst hc; subst hd
          simp only [List.cons_append, List.map_cons, List.map_append,
            List.count_append] at hI ⊢
          by_cases hx : x = p
          · subst hx
            simp [List.count_cons] at hI ⊢
            omega
          · simp [List.count_cons, hx] at hI ⊢
            omega

/-- Permutation form of `sortProps_count`. -/
lemma sortProps_perm (ps : List Func) (a b c d : List SortedProp)
    (h : sortProps ps = some (a, b, c, d)) :
    ((a ++ b ++ c ++ d).map SortedProp.base).Perm ps :=
  List.perm_iff_count.mpr (sortProps_count ps a b c d h)

/-- Every class record produced by `sortClasses` carries the bucket lists the
sort loop computed from its own `props`. -/
lemma sortClasses_mem : ∀ (m : List (String × ClsRec)) (out : List ClsOut),
    sortClasses m = some out → ∀ c ∈ out,
    ∃ a b c2 d, sortProps c.props = some (a, b, c2, d) ∧
      c.scalarprops = a ∧ c.scalararrayprops = b ∧
      c.scalararray2props = c2 ∧ c.stringarrayprops = d := by
  intro m
  induction m with
  | nil =>
    intro out h c hc
    simp [sortClasses] at h
    subst h
    simp at hc
  | cons kc rest ih =>
    intro out h c hc
    obtain ⟨k, cr⟩ := kc
    rw [sortClasses] at h
    cases hs : sortProps cr.props with
    | none => rw [hs] at h; simp at h
    | some q =>
      obtain ⟨a, b, c2, d⟩ := q
      rw [hs] at h
      cases hr : sortClasses rest with
      | none => rw [hr] at h; simp at h
      | some restOut =>
        rw [hr] at h
        simp only [Option.some_bind] at h
        simp at h
        subst h
        rcases List.mem_cons.mp hc with hc1 | hc2
        · subst hc1
          exact ⟨a, b, c2, d, hs, rfl, rfl, rfl, rfl⟩
        · exact ih restOut hr c hc2

/-- Updating the value stored at a present key makes lookup return it. -/
lemma lookup_setKey_self {α : Type} : ∀ (d : List (String × List α)) (k : String) (v : List α),
    (lookupKey d k).isSome = true → lookupKey (setKey d k v) k = some v := by
  intro d
  induction d with
  | nil => intro k v h; simp [lookupKey] at h
  | cons kv rest ih =>
    intro k v h
    obtain ⟨k2, v2⟩ := kv
    by_cases hk : k2 = k
    · simp [lookupKey, setKey, hk]
    · have h2 : (lookupKey rest k).isSome = true := by
        simpa [lookupKey, hk] using h
      simp [lookupKey, setKey, hk, ih k v h2]

/-- Updating one key leaves lookups of other keys unchanged. -/
lemma lookup_setKey_ne {α : Type} : ∀ (d : List (String × List α)) (k k2 : String) (v : List α),
    k2 ≠ k → lookupKey (setKey d k2 v) k = lookupKey d k := by
  intro d
  induction d with
  | nil => intro k k2 v _; simp [lookupKey, setKey]
  | cons kv rest ih =>
    intro k k2 v hne
    obtain ⟨k3, v3⟩ := kv
    by_cases hk : k3 = k2
    · subst hk
      simp [lookupKey, setKey, hne]
    · simp only [setKey, hk, if_false]
      by_cases hk2 : k3 = k
      · simp [lookupKey, hk2]
      · simp [lookupKey, hk2, ih k k2 v hne]

/-- Appending a fresh key makes lookup return its value. -/
lemma lookup_append_single_self {α : Type} :
    ∀ (d : List (String × List α)) (k : String) (w : List α),
    lookupKey d k = none → lookupKey (d ++ [(k, w)]) k = some w := by
  intro d
  induction d with
  | nil => intro k w _; simp [lookupKey]
  | cons kv rest ih =>
    intro k w h
    obtain ⟨k2, v2⟩ := kv
    by_cases hk : k2 = k
    · simp [lookupKey, hk] at h
    · simp only [lookupKey, hk, if_false] at h
      simp [lookupKey, hk]
      exact ih k w h

/-- Appending an entry for a different key leaves a lookup unchanged. -/
lemma lookup_append_single_ne {α : Type} :
    ∀ (d : List (String × List α)) (k k2 : String) (w : List α),
    k2 ≠ k → lookupKey (d ++ [(k2, w)]) k = lookupKey d k := by
  intro d
  induction d with
  | nil => intro k k2 w hne; simp [lookupKey, hne]
  | cons kv rest ih =>
    intro k k2 w hne
    obtain ⟨k3, v3⟩ := kv
    by_cases hk : k3 = k
    · simp [lookupKey, hk]
    · simp [lookupKey, hk, ih k k2 w hne]

/-- Merging one item does not disturb other keys. -/
lemma mergeItem_frame {α : Type} (base : List (String × List α)) (kv : String × List α)
    (k : String) (hne : kv.1 ≠ k) : lookupKey (mergeItem base kv) k = lookupKey base k := by
  unfold mergeItem
  cases hl : lookupKey base kv.1 with
  | some v => exact lookup_setKey_ne base k kv.1 (v ++ kv.2) hne
  | none =>
    obtain ⟨k2, w⟩ := kv
    exact lookup_append_single_ne base k k2 w hne

/-- Merging a document does not disturb keys it does not mention. -/
lemma mergeDoc_frame {α : Type} : ∀ (b base : List (String × List α)) (k : String),
    k ∉ b.map Prod.fst → lookupKey (mergeDoc base b) k = lookupKey base k := by
  intro b
  induction b with
  | nil => intro base k _; rfl
  | cons kv rest ih =>
    intro base k hk
    simp only [List.map_cons, List.mem_cons] at hk
    push_neg at hk
    obtain ⟨h1, h2⟩ := hk
    unfold mergeDoc
    rw [List.foldl_cons]
    have h3 := ih (mergeItem base kv) k h2
    unfold mergeDoc at h3
    rw [h3]
    exact mergeItem_frame base kv k (fun he => h1 he.symm)

end GenBase

namespace GenBase

/-! ## Claim theorems -/

/-- C1, counterexample: for the exact scenario input (entry
`csmGetPartOpacities`, class `Model`), the property test fails (`"Mode"` does
not occur in the entry), so the function is not classified as a 1D scalar-array
property, contrary to the claim. -/
theorem c1_counterexample :
    isproperty c1func = false ∧ isscalararrayproperty c1func = some false := by decide

/-- C1, amended: the scenario input is classified as a method (the class-name
substring test fails for class `Model`).  For the same entry and return
descriptor under a class passing the property test (class `Parts`), the 1D
scalar-array branch sets `propscalartype = "Float"` and
`propgetlength = "count"`, but `propgetlengthfactor` is `"*"` — the second
space-separated token of the length expression — not `"1"`. -/
theorem c1_amended :
    isproperty c1func = false ∧
    isscalararrayproperty c1func = some false ∧
    (∀ d : String, patchFunc { c1func with doc := some d } =
      some { base := { c1func with doc := some d }, isprop := false,
             funcdoc := some d, funcname := some "getPartOpacities",
             Funcname := some "GetPartOpacities" }) ∧
    isscalararrayproperty c1funcParts = some true ∧
    patchPropFields c1funcParts = some
      { propdoc := "Part opacities.", proptype := "FloatArray",
        propget := "csmGetPartOpacities", shape := Shape.array1,
        propscalartype := "Float", propgetlength := some "count",
        propgetlengthfactor := some "*" } := by
  refine ⟨by decide, by decide, ?_, by decide, by decide⟩
  intro d
  rfl

/-- C1, witness for the amended claim: the method patching instantiated at a
concrete doc string. -/
theorem c1_amended_witness :
    patchFunc { c1func with doc := some "Gets part opacities." } =
      some { base := { c1func with doc := some "Gets part opacities." }, isprop := false,
             funcdoc := some "Gets part opacities.", funcname := some "getPartOpacities",
             Funcname := some "GetPartOpacities" } :=
  c1_amended.2.2.1 "Gets part opacities."

/-- C2: for every class record in the output of `patchClasses`, the length of
`props` equals the sum of the four bucket lengths, and the four buckets
together are a permutation of `props` (every property lands in exactly one
bucket). -/
theorem c2_partition_totality (funcs : List Func) (out : List ClsOut) (c : ClsOut)
    (h1 : patchClasses funcs = some out) (h2 : c ∈ out) :
    c.props.length = c.scalarprops.length + c.scalararrayprops.length +
      c.scalararray2props.length + c.stringarrayprops.length ∧
    ((c.scalarprops ++ c.scalararrayprops ++ c.scalararray2props ++
      c.stringarrayprops).map SortedProp.base).Perm c.props := by
  unfold patchClasses at h1
  cases hm : groupFuncs [] funcs with
  | none =>
    rw [hm] at h1
    simp only [Option.bind_eq_bind, Option.none_bind'] at h1
    exact absurd h1 (by simp)
  | some m =>
    rw [hm] at h1
    simp only [Option.bind_eq_bind, Option.some_bind'] at h1
    obtain ⟨a, b, c2, d, hs, ha, hb, hc2, hd⟩ := sortClasses_mem m out h1 c h2
    subst ha; subst hb; subst hc2; subst hd
    have hperm := sortProps_perm _ _ _ _ _ hs
    refine ⟨?_, hperm⟩
    have hlen := hperm.length_eq
    simp only [List.length_map, List.length_append] at hlen
    omega

/-- C2, witness: the invariant evaluated on the concrete run
`patchClasses [mocFunc] = some [mocCls]`. -/
theorem c2_partition_totality_witness :
    mocCls.props.length = mocCls.scalarprops.length + mocCls.scalararrayprops.length +
      mocCls.scalararray2props.length + mocCls.stringarrayprops.length ∧
    ((mocCls.scalarprops ++ mocCls.scalararrayprops ++ mocCls.scalararray2props ++
      mocCls.stringarrayprops).map SortedProp.base).Perm mocCls.props :=
  c2_partition_totality [mocFunc] [mocCls] mocCls (by decide) (by decide)

/-- C3: for every function whose property test, when it holds, comes with a
return descriptor, exactly one of the five classifications applies: method
(the property test fails), 2D scalar-array, 1D scalar-array, string-array, or
scalar property. -/
theorem c3_classification_exactly_one (f : Func)
    (h : isproperty f = true → (f.ret).isSome = true) :
    ((if isproperty f = false then 1 else 0) +
     (if isscalararray2property f = some true then 1 else 0) +
     (if isscalararrayproperty f = some true then 1 else 0) +
     (if isstringarrayproperty f = some true then 1 else 0) +
     (if isscalarproperty f = some true then 1 else 0) : Nat) = 1 := by
  cases hp : isproperty f with
  | false =>
    simp [isscalararray2property, isscalararrayproperty, isstringarrayproperty,
      isscalarproperty, hp]
  | true =>
    obtain ⟨r, hr⟩ := Option.isSome_iff_exists.mp (h hp)
    have ha2 : isscalararray2property f = some (pyEndswith r.type "Array2") := by
      simp [isscalararray2property, hp, hr]
    have ha1 : isscalararrayproperty f =
        some (pyEndswith r.type "Array" && r.type != "StringArray") := by
      simp [isscalararrayproperty, hp, hr]
      cases hE : pyEndswith r.type "Array" <;> simp
    have hsa : isstringarrayproperty f = some (r.type == "StringArray") := by
      simp [isstringarrayproperty, hp, hr]
    cases hE2 : pyEndswith r.type "Array2" with
    | true =>
      have hE1 : pyEndswith r.type "Array" = false := endsArray2_not_endsArray _ hE2
      have hEq : (r.type == "StringArray") = false := by
        cases hq : r.type == "StringArray" with
        | false => rfl
        | true =>
          have hq2 : r.type = "StringArray" := eq_of_beq hq
          rw [hq2] at hE2
          exact absurd hE2 (by simp [strArr_not_endsArray2])
      have hsc : isscalarproperty f = some false := by
        simp [isscalarproperty, hp, ha2, hE2]
      simp [hp, ha2, ha1, hsa, hsc, hE2, hE1, hEq]
    | false =>
      cases hE1 : pyEndswith r.type "Array" with
      | true =>
        cases hEq : r.type == "StringArray" with
        | true =>
          have hEqp : r.type = "StringArray" := eq_of_beq hEq
          have hsc : isscalarproperty f = some false := by
            simp [isscalarproperty, hp, ha2, ha1, hsa, hE2, hE1, hEq, hEqp,
              strArr_not_endsArray2]
          simp [hp, ha2, ha1, hsa, hsc, hE2, hE1, hEq, hEqp, strArr_not_endsArray2]
        | false =>
          have hEqp : ¬ r.type = "StringArray" := by
            intro hh; rw [hh] at hEq; exact absurd hEq (by decide)
          have hsc : isscalarproperty f = some false := by
            simp [isscalarproperty, hp, ha2, ha1, hsa, hE2, hE1, hEq, hEqp,
              strArr_not_endsArray2]
          simp [hp, ha2, ha1, hsa, hsc, hE2, hE1, hEq, hEqp, strArr_not_endsArray2]
      | false =>
        cases hEq : r.type == "StringArray" with
        | true =>
          have hEqp : r.type = "StringArray" := eq_of_beq hEq
          have hsc : isscalarproperty f = some false := by
            simp [isscalarproperty, hp, ha2, ha1, hsa, hE2, hE1, hEq, hEqp,
              strArr_not_endsArray2]
          simp [hp, ha2, ha1, hsa, hsc, hE2, hE1, hEq, hEqp, strArr_not_endsArray2]
        | false =>
          have hEqp : ¬ r.type = "StringArray" := by
            intro hh; rw [hh] at hEq; exact absurd hEq (by decide)
          have hsc : isscalarproperty f = some true := by
            simp [isscalarproperty, hp, ha2, ha1, hsa, hE2, hE1, hEq, hEqp,
              strArr_not_endsArray2]
          simp [hp, ha2, ha1, hsa, hsc, hE2, hE1, hEq, hEqp, strArr_not_endsArray2]

/-- C3, witness: the exactly-one count at the concrete scalar property
`mocFunc`. -/
theorem c3_classification_exactly_one_witness :
    ((if isproperty mocFunc = false then 1 else 0) +
     (if isscalararray2property mocFunc = some true then 1 else 0) +
     (if isscalararrayproperty mocFunc = some true then 1 else 0) +
     (if isstringarrayproperty mocFunc = some true then 1 else 0) +
     (if isscalarproperty mocFunc = some true then 1 else 0) : Nat) = 1 :=
  c3_classification_exactly_one mocFunc (fun _ => by decide)

/-- C4: merging takes the first document as base; for each item of a
subsequent document, an existing key gets its value list-concatenated, a fresh
key is inserted, and keys a subsequent document does not mention are kept
unchanged.  In particular merging `[("enums", [A])]` with `[("enums", [B])]`
yields `[("enums", [A, B])]`. -/
theorem c4_merge_spec {α : Type} :
    (∀ (A B : α), mergeDoc [("enums", [A])] [("enums", [B])] = [("enums", [A, B])]) ∧
    (∀ (base : List (String × List α)) (k : String) (v w : List α),
      lookupKey base k = some v →
      lookupKey (mergeItem base (k, w)) k = some (v ++ w)) ∧
    (∀ (base : List (String × List α)) (k : String) (w : List α),
      lookupKey base k = none →
      lookupKey (mergeItem base (k, w)) k = some w) ∧
    (∀ (base b : List (String × List α)) (k : String),
      k ∉ b.map Prod.fst →
      lookupKey (mergeDoc base b) k = lookupKey base k) := by
  refine ⟨?_, ?_, ?_, ?_⟩
  · intro A B
    rfl
  · intro base k v w h
    unfold mergeItem
    simp only [h]
    exact lookup_setKey_self base k (v ++ w) (by simp [h])
  · intro base k w h
    unfold mergeItem
    simp only [h]
    exact lookup_append_single_self base k w h
  · intro base b k hk
    exact mergeDoc_frame b base k hk

/-- C4, witness: the concrete enums example and preservation of a key only the
first document mentions. -/
theorem c4_merge_spec_witness :
    mergeDoc [("enums", [1])] [("enums", [2])] = [("enums", [1, 2])] ∧
    lookupKey (mergeDoc [("enums", [1]), ("flags", [5])] [("enums", [2])]) "flags" = some [5] :=
  ⟨c4_merge_spec.1 1 2,
   (c4_merge_spec.2.2.2 [("enums", [1]), ("flags", [5])] [("enums", [2])] "flags"
     (by decide)).trans (by decide)⟩

/-- C5, counterexample: on the enum name `acsmB` (where `csm` occurs but not as
a leading prefix) the source removes every occurrence of `csm`, producing
`valuename = "aB"` and `Valuename = "aB"`, while the claim prescribes
`valuename = "acsmB"` (prefix absent, so unchanged) and `Valuename = "AcsmB"`
(first character upper-cased).  `Valuename` is in fact never re-cased by the
source. -/
theorem c5_counterexample :
    patchEnumEntry { name := "acsmB", doc := "d" } =
      some { name := "acsmB", doc := "d", valuedoc := "d",
             valuename := "aB", Valuename := "aB" } ∧
    claimValuename "acsmB" = some "acsmB" ∧
    claimValuenameCap "acsmB" = some "AcsmB" ∧
    ("aB" : String) ≠ "acsmB" ∧ ("aB" : String) ≠ "AcsmB" := by decide

/-- C5, amended: for every enum entry whose name is non-empty after removing
every occurrence of `csm`, `valuename` is the name with every occurrence of
`csm` removed and the first character lower-cased, and `Valuename` is the name
with every occurrence of `csm` removed, unchanged. -/
theorem c5_amended (e : EnumEntry) (v : String)
    (h : pyLowerFirst (pyReplace e.name "csm") = some v) :
    patchEnumEntry e =
      some { name := e.name, doc := e.doc, valuedoc := e.doc,
             valuename := v, Valuename := pyReplace e.name "csm" } := by
  simp only [patchEnumEntry, h, Option.bind_eq_bind, Option.some_bind', Option.pure_def]

/-- C5, witness: the amended derivation on a well-formed enum name. -/
theorem c5_amended_witness :
    patchEnumEntry { name := "csmAlignment", doc := "Alignment." } =
      some { name := "csmAlignment", doc := "Alignment.", valuedoc := "Alignment.",
             valuename := "alignment", Valuename := "Alignment" } :=
  c5_amended { name := "csmAlignment", doc := "Alignment." } "alignment" (by decide)

/-- C6, counterexample: for the exact scenario input (entry
`csmGetParameterCount`, class `Model`), the property test fails (`"Mode"` does
not occur in the entry — there is no character `d` in it), so the function is
not classified as a scalar property, contrary to the claim. -/
theorem c6_counterexample :
    isproperty c6func = false ∧ isscalarproperty c6func = some false := by decide

/-- C6, amended: the scenario input is classified as a method and appended to
the class's `funcs` list, with `funcname = "getParameterCount"` and
`funcdoc = "Gets parameter count."` (the raw doc string). -/
theorem c6_amended :
    patchFunc c6func = some
      { base := c6func, isprop := false, funcdoc := some "Gets parameter count.",
        funcname := some "getParameterCount", Funcname := some "GetParameterCount" } ∧
    groupFuncs [] [c6func] = some
      [("model", { doc := "Model", name := "model", Name := "Model", type := "Model",
                   funcs := [c6func], hasfuncs := true })] := by decide

/-- C7: the non-accessor function `{entry: "csmUpdateModel", class: "Model"}`
(with any doc string) fails the property test, is classified as a method,
appended to the class's `funcs` list (not `props`), and gets
`funcname = "update"`. -/
theorem c7_method_update (d : String) :
    isproperty (c7func d) = false ∧
    patchFunc (c7func d) = some
      { base := c7func d, isprop := false, funcdoc := some d,
        funcname := some "update", Funcname := some "Update" } ∧
    groupFuncs [] [c7func d] = some
      [("model", { doc := "Model", name := "model", Name := "Model", type := "Model",
                   funcs := [c7func d], hasfuncs := true })] :=
  ⟨rfl, rfl, rfl⟩

/-- C7, witness: the method classification at a concrete doc string. -/
theorem c7_method_update_witness :
    isproperty (c7func "Updates model.") = false ∧
    patchFunc (c7func "Updates model.") = some
      { base := c7func "Updates model.", isprop := false, funcdoc := some "Updates model.",
        funcname := some "update", Funcname := some "Update" } ∧
    groupFuncs [] [c7func "Updates model."] = some
      [("model", { doc := "Model", name := "model", Name := "Model", type := "Model",
                   funcs := [c7func "Updates model."], hasfuncs := true })] :=
  c7_method_update "Updates model."

/-- C8: every substring-removal step of the name derivation preserves its
input when the expected substring is absent, so the stripping pipelines of
`_topropname` and `_tofuncname` are no-ops on a name from which all expected
substrings are absent. -/
theorem c8_strip_noop :
    (∀ (s pat : String), pyContains s pat = false → pyReplace s pat = s) ∧
    (∀ f : Func, pyContains f.entry "csmGet" = false →
      pyContains f.entry f.«class» = false →
      pyContains f.entry (pyButLast f.«class») = false →
      propnameStripped f = f.entry) ∧
    (∀ f : Func, pyContains f.entry "csm" = false →
      pyContains f.entry f.«class» = false →
      pyContains f.entry (pyButLast f.«class») = false →
      funcnameStripped f = f.entry) := by
  refine ⟨pyReplace_of_not_contains, ?_, ?_⟩
  · intro f h1 h2 h3
    unfold propnameStripped
    rw [pyReplace_of_not_contains _ _ h1, pyReplace_of_not_contains _ _ h2,
      pyReplace_of_not_contains _ _ h3]
  · intro f h1 h2 h3
    unfold funcnameStripped
    rw [pyReplace_of_not_contains _ _ h1, pyReplace_of_not_contains _ _ h2,
      pyReplace_of_not_contains _ _ h3]

/-- C8, witness: the pipelines at a concrete name containing none of the
expected substrings. -/
theorem c8_strip_noop_witness :
    pyReplace "update" "csmGet" = "update" ∧
    propnameStripped { entry := "update", «class» := "Z9" } = "update" ∧
    funcnameStripped { entry := "update", «class» := "Z9" } = "update" :=
  ⟨c8_strip_noop.1 "update" "csmGet" (by decide),
   c8_strip_noop.2.1 { entry := "update", «class» := "Z9" } (by decide) (by decide) (by decide),
   c8_strip_noop.2.2 { entry := "update", «class» := "Z9" } (by decide) (by decide) (by decide)⟩

/-- C9: a function that passes the property test but has no return descriptor
makes the shape classification and the sort loop fail with a missing-key
lookup (modelled as `none`) instead of producing a classification. -/
theorem c9_property_without_return (f : Func)
    (h1 : isproperty f = true) (h2 : f.ret = none) :
    isscalararray2property f = none ∧ isscalararrayproperty f = none ∧
    isstringarrayproperty f = none ∧ isscalarproperty f = none ∧
    patchPropFields f = none ∧ sortProps [f] = none := by
  have ha2 : isscalararray2property f = none := by simp [isscalararray2property, h1, h2]
  have ha1 : isscalararrayproperty f = none := by simp [isscalararrayproperty, h1, h2]
  have hsa : isstringarrayproperty f = none := by simp [isstringarrayproperty, h1, h2]
  have hsc : isscalarproperty f = none := by simp [isscalarproperty, h1, ha2]
  have hpf : patchPropFields f = none := by
    cases hd : f.doc with
    | none =>
      simp only [patchPropFields, hd, Option.bind_eq_bind, Option.none_bind']
    | some d =>
      cases htd : topropdoc d with
      | none =>
        simp only [patchPropFields, hd, htd, Option.bind_eq_bind, Option.some_bind',
          Option.none_bind']
      | some pd =>
        simp only [patchPropFields, hd, htd, h2, Option.bind_eq_bind, Option.some_bind',
          Option.none_bind']
  refine ⟨ha2, ha1, hsa, hsc, hpf, ?_⟩
  simp only [sortProps, hpf, Option.bind_eq_bind, Option.none_bind']

/-- C9, witness: the failure at the concrete property-shaped function without
a return descriptor. -/
theorem c9_property_without_return_witness :
    isscalararray2property c9func = none ∧ sortProps [c9func] = none := by
  have h := c9_property_without_return c9func (by decide) (by decide)
  exact ⟨h.1, h.2.2.2.2.2⟩

/-- C10: name derivation is partial — for entry `csmGetModel` with class
`Model` the three-stage stripping of `_topropname` leaves the empty string and
the first-character access fails (`none`); likewise `_tofuncname` on entry
`csmModel` with class `Model`.  Both functions reach the failing derivation
(the first is a property, the second a method). -/
theorem c10_empty_name_derivation :
    isproperty c10prop = true ∧ propnameStripped c10prop = "" ∧
    topropname c10prop = none ∧ patchFunc c10prop = none ∧
    isproperty c10meth = false ∧ funcnameStripped c10meth = "" ∧
    tofuncname c10meth = none ∧ patchFunc c10meth = none := by decide

end GenBase
